import Mathlib

/-!
Shallow embedding of `photo_watermark.py` (a photo date-watermark tool).

Pure logic (`calculate_position`, the EXIF date extraction policy, the color
argument grammar, output-path construction, the batch filter/counter) is
translated directly from the source.  Effectful primitives supplied by the
standard library and Pillow (opening an image, reading its EXIF dictionary,
text measurement, drawing, `os.makedirs`, saving) are modelled as oracle
inputs: each call site receives the outcome (`Except`-valued) that the
primitive would have produced, and the control flow of the source — in
particular which exceptions are caught where — is reproduced exactly.

Machine-level conventions of the model:
* Python integers are `Int` (unbounded); Python floor division `//` is
  `Int.fdiv`.
* Python strings are `String` / `List Char`; `str.lower`, `str.strip` and
  `\s` are modelled on ASCII (the inputs the program handles are ASCII).
* `datetime.strptime(s, "%Y:%m:%d %H:%M:%S")` is modelled by a
  character-level parser with the same acceptance behaviour: CPython
  compiles the format to the anchored regex
  `\d{4}:(1[0-2]|0[1-9]|[1-9]):(3[01]|[12]\d|0[1-9]|[1-9])\s+`
  `(2[0-3]|[0-1]\d|\d):([0-5]\d|\d):(6[0-1]|[0-5]\d|\d)` with a
  whole-string check, and the `datetime` constructor then validates the
  calendar ranges (year 1..9999, month 1..12, day against the month length,
  hour ≤ 23, minute ≤ 59, second ≤ 59).  Because every numeric field is
  followed by a non-digit separator (or the end of the string), the ordered
  regex alternations are extensionally equal to "consume two digits when
  the next two characters are digits, else one digit" followed by the range
  checks, which is what the parser below does.
* `datetime.strftime("%Y-%m-%d")` is modelled as zero-padded
  4-2-2 digit formatting (exact for every year in 1000..9999 and every
  date `datetime` can hold; years below 1000 are padded, which matches the
  documented format of the specification).
-/

/-- A parsed `datetime` value (the fields `strptime` produces). -/
structure DateTime where
  year : Nat
  month : Nat
  day : Nat
  hour : Nat
  minute : Nat
  second : Nat
deriving DecidableEq, Repr

/-- The decimal digit character for `n % 10`. -/
def digitChar (n : Nat) : Char := Char.ofNat (48 + n % 10)

/-- Model of `datetime.strftime("%Y-%m-%d")`: zero-padded `YYYY-MM-DD`. -/
def formatDate (dt : DateTime) : String :=
  String.mk [digitChar (dt.year / 1000), digitChar (dt.year / 100),
             digitChar (dt.year / 10), digitChar dt.year, '-',
             digitChar (dt.month / 10), digitChar dt.month, '-',
             digitChar (dt.day / 10), digitChar dt.day]

/-- ASCII decimal digit test. -/
def isDigitCh (c : Char) : Bool := decide ('0' ≤ c) && decide (c ≤ '9')

/-- Syntactic `YYYY-MM-DD` check: ten characters, digits with dashes at
positions 4 and 7. -/
def isValidDateString (s : String) : Bool :=
  match s.toList with
  | [y1, y2, y3, y4, s1, m1, m2, s2, d1, d2] =>
    isDigitCh y1 && isDigitCh y2 && isDigitCh y3 && isDigitCh y4 &&
    (s1 == '-') && isDigitCh m1 && isDigitCh m2 && (s2 == '-') &&
    isDigitCh d1 && isDigitCh d2
  | _ => false

/-- Numeric value of a digit character. -/
def digitVal (c : Char) : Nat := c.toNat - 48

/-- Exactly four digits (the `%Y` directive). -/
def num4 : List Char → Option (Nat × List Char)
  | c1 :: c2 :: c3 :: c4 :: rest =>
    if isDigitCh c1 && isDigitCh c2 && isDigitCh c3 && isDigitCh c4 then
      some (digitVal c1 * 1000 + digitVal c2 * 100 + digitVal c3 * 10 + digitVal c4, rest)
    else none
  | _ => none

/-- Two digits when available, else one (the two-digit-field directives;
see the header comment for why this matches the regex alternations). -/
def num2or1 : List Char → Option (Nat × List Char)
  | c1 :: c2 :: rest =>
    if isDigitCh c1 then
      if isDigitCh c2 then some (digitVal c1 * 10 + digitVal c2, rest)
      else some (digitVal c1, c2 :: rest)
    else none
  | [c1] => if isDigitCh c1 then some (digitVal c1, []) else none
  | [] => none

/-- The literal `:` separators of the format string. -/
def expectColon : List Char → Option (List Char)
  | c :: rest => if c = ':' then some rest else none
  | [] => none

/-- ASCII whitespace (Python `\s` on the data this program reads). -/
def isSpaceCh (c : Char) : Bool :=
  c == ' ' || c == '\t' || c == '\n' || c == '\r' || c == '\x0b' || c == '\x0c'

/-- One or more whitespace characters (`strptime` turns the space of the
format string into `\s+`). -/
def ws1 : List Char → Option (List Char)
  | c :: rest => if isSpaceCh c then some (rest.dropWhile isSpaceCh) else none
  | [] => none

/-- Lexical phase of `strptime(s, "%Y:%m:%d %H:%M:%S")` with the
whole-string check (`unconverted data remains`). -/
def parseExifRaw (cs : List Char) : Option DateTime := do
  let (y, cs) ← num4 cs
  let cs ← expectColon cs
  let (mo, cs) ← num2or1 cs
  let cs ← expectColon cs
  let (d, cs) ← num2or1 cs
  let cs ← ws1 cs
  let (h, cs) ← num2or1 cs
  let cs ← expectColon cs
  let (mi, cs) ← num2or1 cs
  let cs ← expectColon cs
  let (sec, cs) ← num2or1 cs
  if cs = [] then some ⟨y, mo, d, h, mi, sec⟩ else none

/-- Gregorian leap-year rule used by `datetime`. -/
def isLeapYear (y : Nat) : Bool := y % 4 == 0 && (y % 100 != 0 || y % 400 == 0)

/-- Length of a month as `datetime` validates it. -/
def daysInMonth (y m : Nat) : Nat :=
  if m = 2 then (if isLeapYear y then 29 else 28)
  else if m = 4 ∨ m = 6 ∨ m = 9 ∨ m = 11 then 30 else 31

/-- The range checks of the `datetime` constructor (plus the regex range of
each field, which is subsumed by them; `60`/`61` seconds pass the regex but
are rejected by the constructor). -/
def validDT (dt : DateTime) : Bool :=
  decide (1 ≤ dt.year) && decide (dt.year ≤ 9999) &&
  decide (1 ≤ dt.month) && decide (dt.month ≤ 12) &&
  decide (1 ≤ dt.day) && decide (dt.day ≤ daysInMonth dt.year dt.month) &&
  decide (dt.hour ≤ 23) && decide (dt.minute ≤ 59) && decide (dt.second ≤ 59)

/-- Model of `datetime.strptime(s, "%Y:%m:%d %H:%M:%S")`: `some` exactly when the
call returns instead of raising `ValueError`. -/
def parseExifDateTime (s : String) : Option DateTime :=
  match parseExifRaw s.toList with
  | some dt => if validDT dt then some dt else none
  | none => none

/-- The EXIF tag id that `ExifTags.TAGS` maps to `DateTimeOriginal`
(the loop over `ExifTags.TAGS.items()` finds exactly this key). -/
def DateTimeOriginalTag : Nat := 36867

/-- Model of `tag in exif_data` / `exif_data[tag]` over the dictionary model. -/
def lookupTag (tag : Nat) : List (Nat × String) → Option String
  | [] => none
  | (t, v) :: rest => if t = tag then some v else lookupTag tag rest

/-- Model of `PhotoWatermark.get_exif_date`.  The outcome of
`Image.open` + `img._getexif()` is the oracle `exifRead`
(`.error` = an exception was raised, caught by the outer handler;
`.ok none` = `_getexif()` returned `None`; `.ok (some entries)` = the tag
dictionary).  `now` is the `datetime.now()` value.  Returns the date string
together with a flag recording whether a fallback diagnostic was printed. -/
def get_exif_date (exifRead : Except String (Option (List (Nat × String))))
    (now : DateTime) : String × Bool :=
  match exifRead with
  | .error _ => (formatDate now, true)
  | .ok exif_data =>
    match exif_data with
    | none => (formatDate now, true)
    | some entries =>
      if entries = [] then (formatDate now, true)
      else
        match lookupTag DateTimeOriginalTag entries with
        | none => (formatDate now, true)
        | some date_time =>
          if date_time = "" then (formatDate now, true)
          else
            match parseExifDateTime date_time with
            | some dt => (formatDate dt, false)
            | none => (formatDate now, true)

/-- Model of `PhotoWatermark.calculate_position`: the nine-way string dispatch with
fixed padding 20 and Python floor division (`//` = `Int.fdiv`). -/
def calculate_position (position : String) (img_width img_height text_width text_height : Int) :
    Int × Int :=
  let padding : Int := 20
  if position = "left_top" then (padding, padding)
  else if position = "center_top" then ((img_width - text_width).fdiv 2, padding)
  else if position = "right_top" then (img_width - text_width - padding, padding)
  else if position = "left_center" then (padding, (img_height - text_height).fdiv 2)
  else if position = "center" then
    ((img_width - text_width).fdiv 2, (img_height - text_height).fdiv 2)
  else if position = "right_center" then
    (img_width - text_width - padding, (img_height - text_height).fdiv 2)
  else if position = "left_bottom" then (padding, img_height - text_height - padding)
  else if position = "center_bottom" then
    ((img_width - text_width).fdiv 2, img_height - text_height - padding)
  else if position = "right_bottom" then
    (img_width - text_width - padding, img_height - text_height - padding)
  else (img_width - text_width - padding, img_height - text_height - padding)

/-- The nine slot names the dispatch recognises (also the CLI `choices`). -/
def slotNames : List String :=
  ["left_top", "center_top", "right_top",
   "left_center", "center", "right_center",
   "left_bottom", "center_bottom", "right_bottom"]

/-- Python `str.strip()` on ASCII whitespace. -/
def pyStrip (s : String) : String :=
  String.mk (((s.toList.dropWhile isSpaceCh).reverse.dropWhile isSpaceCh).reverse)

/-- Digit run with the underscore-grouping rule of Python `int()`:
every underscore must sit between two digits. The leading character has
already been checked to be a digit. -/
def pyDigitsAux : Nat → List Char → Option Nat
  | acc, [] => some acc
  | acc, c :: rest =>
    if isDigitCh c then pyDigitsAux (acc * 10 + digitVal c) rest
    else if c = '_' then
      match rest with
      | d :: _ => if isDigitCh d then pyDigitsAux acc rest else none
      | [] => none
    else none

/-- Nonempty digit run starting with a digit. -/
def pyDigits (cs : List Char) : Option Nat :=
  match cs with
  | [] => none
  | c :: _ => if isDigitCh c then pyDigitsAux 0 cs else none

/-- Python `int(s)` on a decimal string: optional surrounding whitespace,
optional sign, nonempty digit run (with underscore grouping); `none` when
`int` would raise `ValueError`. -/
def pyIntOfStr (s : String) : Option Int :=
  match (pyStrip s).toList with
  | '+' :: rest => (pyDigits rest).map Int.ofNat
  | '-' :: rest => (pyDigits rest).map (fun n => -(n : Int))
  | cs => (pyDigits cs).map Int.ofNat

/-- Python `str.split(',')` (keeps empty pieces; `"".split(',') == [""]`). -/
def splitOnComma : List Char → List (List Char)
  | [] => [[]]
  | c :: rest =>
    if c = ',' then [] :: splitOnComma rest
    else
      match splitOnComma rest with
      | g :: gs => (c :: g) :: gs
      | [] => [[c]]

/-- The split `color_str.split(',')` as strings. -/
def pySplitComma (s : String) : List String := (splitOnComma s.toList).map String.mk

/-- The list comprehension `[int(c.strip()) for c in color_str.split(',')]`:
all components parse or a `ValueError` escapes (modelled as `none`). -/
def parseComponents : List String → Option (List Int)
  | [] => some []
  | c :: rest =>
    match pyIntOfStr c, parseComponents rest with
    | some v, some vs => some (v :: vs)
    | _, _ => none

/-- The failure kinds `parse_color` wraps into `ArgumentTypeError`. -/
inductive ColorErr
  | badComponent
  | badCount
  | outOfRange (index : Nat)
deriving DecidableEq, Repr

/-- Component range test `0 <= v <= 255`. -/
def colorInRange (v : Int) : Bool := decide (0 ≤ v) && decide (v ≤ 255)

/-- Model of `parse_color`: split on commas, strip-and-int each component, append the
default alpha 128 to a 3-component list, reject any other count, then
reject the first out-of-range component with its 1-based index. -/
def parse_color (s : String) : Except ColorErr (Int × Int × Int × Int) :=
  match parseComponents (pySplitComma s) with
  | none => .error .badComponent
  | some comps0 =>
    match (if comps0.length = 3 then comps0 ++ [128] else comps0) with
    | [r, g, b, a] =>
      if ¬ colorInRange r then .error (.outOfRange 1)
      else if ¬ colorInRange g then .error (.outOfRange 2)
      else if ¬ colorInRange b then .error (.outOfRange 3)
      else if ¬ colorInRange a then .error (.outOfRange 4)
      else .ok (r, g, b, a)
    | _ => .error .badCount

/-- Model of `os.path.basename` (POSIX): everything after the last `/`. -/
def pyBasename (p : String) : String :=
  String.mk ((p.toList.reverse.takeWhile (fun c => c ≠ '/')).reverse)

/-- Model of `os.path.dirname` (POSIX): everything up to and including the last `/`,
with trailing slashes stripped unless the head is all slashes. -/
def pyDirname (p : String) : String :=
  let cs := p.toList
  let tailLen := (cs.reverse.takeWhile (fun c => c ≠ '/')).length
  let head := cs.take (cs.length - tailLen)
  if head = [] then ""
  else if head.all (fun c => c = '/') then String.mk head
  else String.mk ((head.reverse.dropWhile (fun c => c = '/')).reverse)

/-- Model of `os.path.join(a, b)` (POSIX, two arguments). -/
def pyJoin (a b : String) : String :=
  if b.toList.head? = some '/' then b
  else if a.toList = [] ∨ a.toList.getLast? = some '/' then a ++ b
  else a ++ "/" ++ b

/-- The output directory both modes build:
`os.path.join(dir, os.path.basename(dir) + "_watermark")`. -/
def watermark_output_dir (dir : String) : String :=
  pyJoin dir (pyBasename dir ++ "_watermark")

/-- The output path `main` builds in single-file mode:
`dir_path = os.path.dirname(input) or "."`, then the file's name under
`<dir_path>/<basename(dir_path)>_watermark`. -/
def single_file_output_path (input_path : String) : String :=
  let dir_path := if pyDirname input_path = "" then "." else pyDirname input_path
  pyJoin (watermark_output_dir dir_path) (pyBasename input_path)

/-- Modelled from the spec claim: the output-path formula
`<dirname(input)>/<basename(dirname(input))>_watermark/<filename(input)>`
taken literally (no substitution for an empty dirname). -/
def spec_single_file_output_path (input_path : String) : String :=
  pyJoin (pyJoin (pyDirname input_path) (pyBasename (pyDirname input_path) ++ "_watermark"))
    (pyBasename input_path)

/-- A decoded raster image: the canvas dimensions and its pixel buffer
(content abstracted to a list). -/
structure Image where
  width : Nat
  height : Nat
  pixels : List Nat
deriving DecidableEq, Repr

/-- Outcomes of the effectful primitives `add_watermark` calls, as the
underlying libraries would have produced them on one concrete run.
`drawText` receives the pixel buffer of the copy, the anchor and the text —
PIL text drawing mutates the buffer in place and cannot change the canvas
size, so only the pixel data is oracle-determined. -/
structure RenderOps where
  exifRead : Except String (Option (List (Nat × String)))
  now : DateTime
  openImage : Except String Image
  measureText : String → Except String (Int × Int)
  drawText : List Nat → Int × Int → String → Except String (List Nat)
  makeDirs : Except String Unit
  saveImage : Except String Unit

/-- The `try` body of `PhotoWatermark.add_watermark`: date, open, copy,
measure (the modern/legacy measurement split of the source is one oracle —
both branches yield a width/height pair), position, draw, `makedirs`,
save; the first exception aborts the body. -/
def add_watermark_run (ops : RenderOps) (position : String) : Except String Image :=
  let date_text := (get_exif_date ops.exifRead ops.now).1
  match ops.openImage with
  | .error e => .error e
  | .ok img =>
    match ops.measureText date_text with
    | .error e => .error e
    | .ok (tw, th) =>
      let anchor := calculate_position position (img.width : Int) (img.height : Int) tw th
      match ops.drawText img.pixels anchor date_text with
      | .error e => .error e
      | .ok px =>
        match ops.makeDirs with
        | .error e => .error e
        | .ok _ =>
          match ops.saveImage with
          | .error e => .error e
          | .ok _ => .ok { img with pixels := px }

/-- Model of `PhotoWatermark.add_watermark`: the body under
`try ... except Exception: return False`, returning `True` on success. -/
def add_watermark (ops : RenderOps) (position : String) : Bool :=
  match add_watermark_run ops position with
  | .ok _ => true
  | .error _ => false

/-- File-system effects the batch/CLI layers perform. -/
inductive Ev
  | mkdir (path : String)
  | render (input output : String) (ok : Bool)
deriving DecidableEq, Repr

/-- The tuple `image_extensions` of `process_directory`. -/
def image_extensions : List String := [".jpg", ".jpeg", ".png", ".tiff", ".bmp"]

/-- ASCII `str.lower` on one character. -/
def lowerChar (c : Char) : Char :=
  if 'A' ≤ c ∧ c ≤ 'Z' then Char.ofNat (c.toNat + 32) else c

/-- Initial-segment test on character lists, used for suffix matching. -/
def listStartsWith : List Char → List Char → Bool
  | [], _ => true
  | _ :: _, [] => false
  | a :: as, b :: bs => (a == b) && listStartsWith as bs

/-- Model of `filename.lower().endswith(image_extensions)`. -/
def hasImageExt (filename : String) : Bool :=
  image_extensions.any fun ext =>
    listStartsWith ext.toList.reverse ((filename.toList.map lowerChar).reverse)

/-- One iteration of the `process_directory` loop: filter by extension,
render into the output directory, bump the counter on success. -/
def pdStep (input_dir output_dir : String) (render : String → String → Bool)
    (acc : Nat × List Ev) (filename : String) : Nat × List Ev :=
  if hasImageExt filename then
    let ok := render (pyJoin input_dir filename) (pyJoin output_dir filename)
    ((if ok then acc.1 + 1 else acc.1),
     acc.2 ++ [Ev.render (pyJoin input_dir filename) (pyJoin output_dir filename) ok])
  else acc

/-- Model of `PhotoWatermark.process_directory` over an abstract file system:
`is_dir` is `os.path.isdir(input_dir)`, `listing` is `os.listdir(input_dir)`
and `render` is the outcome `add_watermark` would return per path pair.
Returns the success count and the trace of effects (the `makedirs` for the
output directory, then one render per supported entry). -/
def process_directory (input_dir : String) (is_dir : Bool) (listing : List String)
    (render : String → String → Bool) : Nat × List Ev :=
  if is_dir = false then (0, [])
  else
    listing.foldl (pdStep input_dir (watermark_output_dir input_dir) render)
      (0, [Ev.mkdir (watermark_output_dir input_dir)])

/-- Model of `main` after argument parsing: directory mode, then single-file mode,
then the missing-path error.  Returns the process exit code and the trace
of file-system effects. -/
def main_run (input_path : String) (is_dir is_file : Bool) (listing : List String)
    (render : String → String → Bool) : Nat × List Ev :=
  if is_dir then
    (0, (process_directory input_path true listing render).2)
  else if is_file then
    let dir_path := if pyDirname input_path = "" then "." else pyDirname input_path
    let output_path := single_file_output_path input_path
    (0, [Ev.mkdir (watermark_output_dir dir_path),
         Ev.render input_path output_path (render input_path output_path)])
  else (1, [])

/-- The function `digitChar` always yields an ASCII digit. -/
theorem isDigitCh_digitChar (n : Nat) : isDigitCh (digitChar n) = true := by
  unfold digitChar
  set k := n % 10 with hk
  have hk10 : k < 10 := hk ▸ Nat.mod_lt _ (by norm_num)
  interval_cases k <;> decide

/-- The function `formatDate` always yields a syntactic `YYYY-MM-DD` string. -/
theorem isValidDateString_formatDate (dt : DateTime) :
    isValidDateString (formatDate dt) = true := by
  simp [formatDate, isValidDateString, String.toList, isDigitCh_digitChar]

/-- Every branch of `get_exif_date` returns a formatted date. -/
theorem get_exif_date_shape (e : Except String (Option (List (Nat × String))))
    (now : DateTime) : ∃ dt, (get_exif_date e now).1 = formatDate dt := by
  unfold get_exif_date
  rcases e with msg | o
  · exact ⟨now, rfl⟩
  rcases o with _ | entries
  · exact ⟨now, rfl⟩
  dsimp only
  split
  · exact ⟨now, rfl⟩
  split
  · exact ⟨now, rfl⟩
  split
  · exact ⟨now, rfl⟩
  split
  · exact ⟨_, rfl⟩
  · exact ⟨now, rfl⟩

/-- C1: for positive canvas dimensions and non-negative text dimensions,
`calculate_position` realises the axis formulas with padding 20 on each of
the nine slots (start axis = 20, end axis = dimension − text − 20, centered
axis = floor division by 2), any unrecognised position string falls back to
the bottom-right pair on both axes, and no clamping is applied: oversized
text makes the end-axis coordinate negative. -/
theorem calculate_position_spec (position : String) (W H w h : Int)
    (hW : 0 < W) (hH : 0 < H) (hw : 0 ≤ w) (hh : 0 ≤ h) :
    calculate_position "left_top" W H w h = (20, 20)
  ∧ calculate_position "center_top" W H w h = ((W - w).fdiv 2, 20)
  ∧ calculate_position "right_top" W H w h = (W - w - 20, 20)
  ∧ calculate_position "left_center" W H w h = (20, (H - h).fdiv 2)
  ∧ calculate_position "center" W H w h = ((W - w).fdiv 2, (H - h).fdiv 2)
  ∧ calculate_position "right_center" W H w h = (W - w - 20, (H - h).fdiv 2)
  ∧ calculate_position "left_bottom" W H w h = (20, H - h - 20)
  ∧ calculate_position "center_bottom" W H w h = ((W - w).fdiv 2, H - h - 20)
  ∧ calculate_position "right_bottom" W H w h = (W - w - 20, H - h - 20)
  ∧ (position ∉ slotNames → calculate_position position W H w h = (W - w - 20, H - h - 20))
  ∧ (W ≤ w → (calculate_position "right_bottom" W H w h).1 < 0) := by
  refine ⟨rfl, rfl, rfl, rfl, rfl, rfl, rfl, rfl, rfl, ?_, ?_⟩
  · intro hpos
    simp only [slotNames, List.mem_cons, List.not_mem_nil, or_false, not_or] at hpos
    obtain ⟨h1, h2, h3, h4, h5, h6, h7, h8, h9⟩ := hpos
    unfold calculate_position
    simp only [if_neg h1, if_neg h2, if_neg h3, if_neg h4, if_neg h5, if_neg h6,
      if_neg h7, if_neg h8, if_neg h9]
  · intro hWw
    have hfst : (calculate_position "right_bottom" W H w h).1 = W - w - 20 := rfl
    rw [hfst]
    omega

theorem calculate_position_spec_witness :
    calculate_position "right_bottom" 800 600 100 30 = (680, 550)
  ∧ calculate_position "center" 800 600 100 30 = (350, 285)
  ∧ calculate_position "badslot" 800 600 100 30 = (680, 550) := by
  have h := calculate_position_spec "badslot" 800 600 100 30 (by decide) (by decide)
    (by decide) (by decide)
  refine ⟨h.2.2.2.2.2.2.2.2.1.trans (by decide), h.2.2.2.2.1.trans (by decide),
    (h.2.2.2.2.2.2.2.2.2.1 (by decide)).trans (by decide)⟩

/-- C2: when the EXIF dictionary holds the `DateTimeOriginal` tag with a
value `strptime` accepts, `get_exif_date` returns that date reformatted as
`YYYY-MM-DD` (and emits no fallback diagnostic). -/
theorem get_exif_date_parses (entries : List (Nat × String)) (now : DateTime)
    (s : String) (dt : DateTime)
    (hlook : lookupTag DateTimeOriginalTag entries = some s)
    (hparse : parseExifDateTime s = some dt) :
    get_exif_date (.ok (some entries)) now = (formatDate dt, false) := by
  cases entries with
  | nil => simp [lookupTag] at hlook
  | cons p l =>
    have hs : s ≠ "" := by
      intro hempty
      rw [hempty] at hparse
      have hnone : parseExifDateTime "" = none := by decide
      rw [hnone] at hparse
      exact Option.noConfusion hparse
    simp [get_exif_date, hlook, hs, hparse]

theorem get_exif_date_parses_witness :
    get_exif_date (.ok (some [(36867, "2023:05:17 14:30:00")])) ⟨2026, 1, 1, 0, 0, 0⟩ =
      ("2023-05-17", false) := by
  have h := get_exif_date_parses [(36867, "2023:05:17 14:30:00")] ⟨2026, 1, 1, 0, 0, 0⟩
    "2023:05:17 14:30:00" ⟨2023, 5, 17, 14, 30, 0⟩ (by decide) (by decide)
  rw [h]
  decide

/-- C3: `get_exif_date` is total (the embedding is a total function, mirroring
the source's catch-all handlers), always returns a syntactically valid
`YYYY-MM-DD` string, and on every failure mode — a read error, no EXIF
dictionary, an empty dictionary, a missing tag, or an unparseable value —
returns the current date together with the fallback diagnostic. -/
theorem get_exif_date_spec (e : Except String (Option (List (Nat × String))))
    (now : DateTime) :
    isValidDateString (get_exif_date e now).1 = true
  ∧ (∀ msg, e = .error msg → get_exif_date e now = (formatDate now, true))
  ∧ (e = .ok none → get_exif_date e now = (formatDate now, true))
  ∧ (e = .ok (some []) → get_exif_date e now = (formatDate now, true))
  ∧ (∀ entries, e = .ok (some entries) →
      lookupTag DateTimeOriginalTag entries = none →
      get_exif_date e now = (formatDate now, true))
  ∧ (∀ entries s, e = .ok (some entries) →
      lookupTag DateTimeOriginalTag entries = some s → parseExifDateTime s = none →
      get_exif_date e now = (formatDate now, true)) := by
  refine ⟨?_, ?_, ?_, ?_, ?_, ?_⟩
  · obtain ⟨dt, hdt⟩ := get_exif_date_shape e now
    rw [hdt]
    exact isValidDateString_formatDate dt
  · intro msg he
    subst he
    rfl
  · intro he
    subst he
    rfl
  · intro he
    subst he
    rfl
  · intro entries he hl
    subst he
    cases entries with
    | nil => rfl
    | cons p l => simp [get_exif_date, hl]
  · intro entries s he hl hp
    subst he
    cases entries with
    | nil => simp [lookupTag] at hl
    | cons p l =>
      by_cases hs : s = ""
      · simp [get_exif_date, hl, hs]
      · simp [get_exif_date, hl, hs, hp]

theorem get_exif_date_spec_witness :
    get_exif_date (.ok none) ⟨2026, 10, 12, 0, 0, 0⟩ =
      (formatDate ⟨2026, 10, 12, 0, 0, 0⟩, true)
  ∧ isValidDateString (get_exif_date (.ok none) ⟨2026, 10, 12, 0, 0, 0⟩).1 = true :=
  ⟨(get_exif_date_spec (.ok none) ⟨2026, 10, 12, 0, 0, 0⟩).2.2.1 rfl,
   (get_exif_date_spec (.ok none) ⟨2026, 10, 12, 0, 0, 0⟩).1⟩

/-- A concrete successful run for witnesses. -/
def sampleImage : Image := ⟨800, 600, [1, 2, 3]⟩

/-- Oracle outcomes of a run where every primitive succeeds. -/
def sampleOps : RenderOps where
  exifRead := .ok (some [(36867, "2023:05:17 14:30:00")])
  now := ⟨2026, 1, 1, 0, 0, 0⟩
  openImage := .ok sampleImage
  measureText := fun _ => .ok (100, 30)
  drawText := fun px _ _ => .ok (0 :: px)
  makeDirs := .ok ()
  saveImage := .ok ()

/-- The same run except that saving raises. -/
def sampleFailOps : RenderOps := { sampleOps with saveImage := .error "disk full" }

/-- C5: `add_watermark` is a total Boolean function of the primitive
outcomes — the embedding of `try ... except Exception` returns `False`
exactly when some step of open/measure/draw/makedirs/save raised, and
`True` exactly when the whole pipeline succeeded; no exception escapes. -/
theorem add_watermark_no_raise (ops : RenderOps) (position : String) :
    (add_watermark ops position = true ↔ ∃ img, add_watermark_run ops position = .ok img)
  ∧ (add_watermark ops position = false ↔
      ∃ msg, add_watermark_run ops position = .error msg) := by
  unfold add_watermark
  cases hrun : add_watermark_run ops position with
  | ok img => constructor <;> simp
  | error msg => constructor <;> simp

theorem add_watermark_no_raise_witness :
    add_watermark sampleOps "right_bottom" = true
  ∧ add_watermark sampleFailOps "right_bottom" = false :=
  ⟨(add_watermark_no_raise sampleOps "right_bottom").1.mpr
      ⟨⟨800, 600, [0, 1, 2, 3]⟩, rfl⟩,
   (add_watermark_no_raise sampleFailOps "right_bottom").2.mpr
      ⟨"disk full", rfl⟩⟩

/-- C9: a successful render returns the opened image with its width and
height unchanged — only the pixel buffer differs (the text is drawn onto a
copy; the embedding is pure, so the source image itself is untouched by
construction). -/
theorem add_watermark_preserves_dims (ops : RenderOps) (position : String)
    (img out : Image) (hopen : ops.openImage = .ok img)
    (hrun : add_watermark_run ops position = .ok out) :
    out.width = img.width ∧ out.height = img.height
  ∧ ∃ px, out = { width := img.width, height := img.height, pixels := px } := by
  unfold add_watermark_run at hrun
  rw [hopen] at hrun
  dsimp only at hrun
  cases hm : ops.measureText (get_exif_date ops.exifRead ops.now).1 with
  | error e => rw [hm] at hrun; exact absurd hrun (by simp)
  | ok p =>
    obtain ⟨tw, th⟩ := p
    rw [hm] at hrun
    dsimp only at hrun
    cases hd : ops.drawText img.pixels
        (calculate_position position (img.width : Int) (img.height : Int) tw th)
        (get_exif_date ops.exifRead ops.now).1 with
    | error e => rw [hd] at hrun; exact absurd hrun (by simp)
    | ok px =>
      rw [hd] at hrun
      dsimp only at hrun
      cases hmk : ops.makeDirs with
      | error e => rw [hmk] at hrun; exact absurd hrun (by simp)
      | ok u =>
        rw [hmk] at hrun
        dsimp only at hrun
        cases hsv : ops.saveImage with
        | error e => rw [hsv] at hrun; exact absurd hrun (by simp)
        | ok u2 =>
          rw [hsv] at hrun
          dsimp only at hrun
          injection hrun with hout
          subst hout
          exact ⟨rfl, rfl, px, rfl⟩

theorem add_watermark_preserves_dims_witness :
    (⟨800, 600, [0, 1, 2, 3]⟩ : Image).width = sampleImage.width
  ∧ (⟨800, 600, [0, 1, 2, 3]⟩ : Image).height = sampleImage.height
  ∧ ∃ px, (⟨800, 600, [0, 1, 2, 3]⟩ : Image) =
      { width := sampleImage.width, height := sampleImage.height, pixels := px } :=
  add_watermark_preserves_dims sampleOps "right_bottom" sampleImage
    ⟨800, 600, [0, 1, 2, 3]⟩ rfl rfl

/-- The loop of `process_directory` counts exactly the supported entries
whose render succeeded. -/
theorem pdStep_foldl_fst (inp out : String) (render : String → String → Bool)
    (l : List String) : ∀ (n : Nat) (t : List Ev),
    (l.foldl (pdStep inp out render) (n, t)).1 =
      n + (l.filter hasImageExt).countP (fun f => render (pyJoin inp f) (pyJoin out f)) := by
  induction l with
  | nil => intro n t; simp
  | cons f rest ih =>
    intro n t
    simp only [List.foldl_cons, pdStep]
    by_cases hf : hasImageExt f
    · by_cases hr : render (pyJoin inp f) (pyJoin out f)
      · simp [hf, hr, ih, List.countP_cons]
        omega
      · simp [hf, hr, ih, List.countP_cons]
    · simp [hf, ih]

/-- The loop of `process_directory` only appends render events to the
trace it is given. -/
theorem pdStep_foldl_snd (inp out : String) (render : String → String → Bool)
    (l : List String) : ∀ (n : Nat) (t : List Ev),
    ∃ rest, (l.foldl (pdStep inp out render) (n, t)).2 = t ++ rest
      ∧ ∀ e ∈ rest, ∃ i o b, e = Ev.render i o b := by
  induction l with
  | nil => intro n t; exact ⟨[], by simp, by simp⟩
  | cons f fs ih =>
    intro n t
    simp only [List.foldl_cons, pdStep]
    by_cases hf : hasImageExt f
    · simp only [hf, if_true]
      obtain ⟨rest, h1, h2⟩ := ih (if render (pyJoin inp f) (pyJoin out f) then n + 1 else n)
        (t ++ [Ev.render (pyJoin inp f) (pyJoin out f)
          (render (pyJoin inp f) (pyJoin out f))])
      refine ⟨Ev.render (pyJoin inp f) (pyJoin out f)
        (render (pyJoin inp f) (pyJoin out f)) :: rest, ?_, ?_⟩
      · rw [h1, List.append_assoc]
        rfl
      · intro e he
        rcases List.mem_cons.mp he with rfl | he'
        · exact ⟨_, _, _, rfl⟩
        · exact h2 e he'
    · simp only [hf, if_false]
      exact ih n t

/-- C6: on a non-directory `process_directory` returns 0; on a directory it
returns exactly the number of immediate entries whose lower-cased name ends
in a supported extension and whose render — invoked on the entry path and
the same filename under `<inputDir>/<basename(inputDir)>_watermark` —
succeeded. -/
theorem process_directory_spec (input_dir : String) (is_dir : Bool)
    (listing : List String) (render : String → String → Bool) :
    (is_dir = false → process_directory input_dir is_dir listing render = (0, []))
  ∧ (is_dir = true → (process_directory input_dir is_dir listing render).1 =
      (listing.filter hasImageExt).countP
        (fun f => render (pyJoin input_dir f)
          (pyJoin (watermark_output_dir input_dir) f))) := by
  constructor
  · intro hdir
    subst hdir
    rfl
  · intro hdir
    subst hdir
    unfold process_directory
    simp only [Bool.true_eq_false, if_false]
    rw [pdStep_foldl_fst]
    simp

theorem process_directory_spec_witness :
    (process_directory "photos" true ["a.jpg", "b.PNG", "c.jpeg", "notes.txt", "d.gif"]
      (fun _ _ => true)).1 = 3 := by
  have h := (process_directory_spec "photos" true
    ["a.jpg", "b.PNG", "c.jpeg", "notes.txt", "d.gif"] (fun _ _ => true)).2 rfl
  rw [h]
  decide

/-- C10: in directory mode the very first file-system effect is creating
the output directory `<inputDir>/<basename(inputDir)>_watermark`; it
happens for every listing and every render outcome (in particular when no
entry is supported or every render fails), and everything after it is a
render. -/
theorem process_directory_mkdir_first (input_dir : String) (listing : List String)
    (render : String → String → Bool) :
    ∃ rest, (process_directory input_dir true listing render).2 =
        Ev.mkdir (watermark_output_dir input_dir) :: rest
      ∧ ∀ e ∈ rest, ∃ i o b, e = Ev.render i o b := by
  unfold process_directory
  simp only [Bool.true_eq_false, if_false]
  obtain ⟨rest, h1, h2⟩ := pdStep_foldl_snd input_dir (watermark_output_dir input_dir)
    render listing 0 [Ev.mkdir (watermark_output_dir input_dir)]
  exact ⟨rest, by rw [h1]; rfl, h2⟩

/-- C7: the CLI returns exit code 0 whenever the input path is a directory
or a file — for every render outcome, including a batch where every file
fails — and returns 1 with no file-system effect (in particular no output
directory) exactly when the path is neither. -/
theorem main_exit_code_spec (input_path : String) (is_dir is_file : Bool)
    (listing : List String) (render : String → String → Bool) :
    (is_dir = false → is_file = false →
      main_run input_path is_dir is_file listing render = (1, []))
  ∧ (is_dir = true → (main_run input_path is_dir is_file listing render).1 = 0)
  ∧ (is_file = true → (main_run input_path is_dir is_file listing render).1 = 0)
  ∧ (is_dir = false → is_file = false →
      ∀ p, Ev.mkdir p ∉ (main_run input_path is_dir is_file listing render).2) := by
  refine ⟨?_, ?_, ?_, ?_⟩
  · intro h1 h2
    subst h1
    subst h2
    rfl
  · intro h1
    subst h1
    rfl
  · intro h2
    subst h2
    cases is_dir <;> rfl
  · intro h1 h2 p
    subst h1
    subst h2
    simp [main_run]

theorem main_exit_code_spec_witness :
    main_run "missing.jpg" false false [] (fun _ _ => false) = (1, [])
  ∧ (main_run "photos" true false ["a.jpg", "b.jpg"] (fun _ _ => false)).1 = 0
  ∧ (main_run "photos/a.jpg" false true [] (fun _ _ => false)).1 = 0 :=
  ⟨(main_exit_code_spec "missing.jpg" false false [] (fun _ _ => false)).1 rfl rfl,
   (main_exit_code_spec "photos" true false ["a.jpg", "b.jpg"] (fun _ _ => false)).2.1 rfl,
   (main_exit_code_spec "photos/a.jpg" false true [] (fun _ _ => false)).2.2.1 rfl⟩

/-- A basename never contains (so never starts with) a slash. -/
theorem pyBasename_no_slash (s : String) : (pyBasename s).toList.head? ≠ some '/' := by
  intro h
  have hmem : '/' ∈ (s.toList.reverse.takeWhile (fun c => c ≠ '/')).reverse := by
    unfold pyBasename at h
    rw [show ∀ l : List Char, (String.mk l).toList = l from fun _ => rfl] at h
    cases hl : (s.toList.reverse.takeWhile (fun c => c ≠ '/')).reverse with
    | nil => rw [hl] at h; exact absurd h (by simp)
    | cons c t =>
      rw [hl] at h
      simp only [List.head?_cons, Option.some.injEq] at h
      rw [← h]
      exact List.mem_cons_self _ _
  rw [List.mem_reverse] at hmem
  have := List.mem_takeWhile_imp hmem
  simp at this

/-- C8 counterexample: for the bare filename `photo.jpg` the code's output
path is `./._watermark/photo.jpg` (the empty dirname is replaced by `.`),
not the `_watermark/photo.jpg` the literal spec formula
`<dirname(input)>/<basename(dirname(input))>_watermark/<filename(input)>`
yields. -/
theorem single_file_output_path_cex :
    single_file_output_path "photo.jpg" = "./._watermark/photo.jpg"
  ∧ spec_single_file_output_path "photo.jpg" = "_watermark/photo.jpg"
  ∧ single_file_output_path "photo.jpg" ≠ spec_single_file_output_path "photo.jpg" :=
  ⟨by decide, by decide, by decide⟩

/-- C8 amended: when the input path has a nonempty dirname the output path
is exactly the spec formula
`<dirname(input)>/<basename(dirname(input))>_watermark/<filename(input)>`;
when the dirname is empty the code substitutes `.`, yielding
`./._watermark/<filename(input)>`. -/
theorem single_file_output_path_spec (input_path : String) :
    (pyDirname input_path ≠ "" →
      single_file_output_path input_path = spec_single_file_output_path input_path)
  ∧ (pyDirname input_path = "" →
      single_file_output_path input_path = "./._watermark/" ++ pyBasename input_path) := by
  constructor
  · intro hne
    unfold single_file_output_path spec_single_file_output_path watermark_output_dir
    rw [if_neg hne]
  · intro heq
    unfold single_file_output_path watermark_output_dir
    rw [if_pos heq]
    show pyJoin (pyJoin "." (pyBasename "." ++ "_watermark")) (pyBasename input_path) =
      "./._watermark/" ++ pyBasename input_path
    have h1 : pyJoin "." (pyBasename "." ++ "_watermark") = "./._watermark" := by decide
    rw [h1]
    unfold pyJoin
    rw [if_neg (pyBasename_no_slash input_path), if_neg (by decide)]
    rw [show ("./._watermark" ++ "/" : String) = "./._watermark/" from by decide]

theorem single_file_output_path_spec_witness :
    single_file_output_path "photos/photo.jpg" =
      spec_single_file_output_path "photos/photo.jpg"
  ∧ single_file_output_path "photos/photo.jpg" = "photos/photos_watermark/photo.jpg"
  ∧ single_file_output_path "photo.jpg" = "./._watermark/" ++ pyBasename "photo.jpg" := by
  have h := (single_file_output_path_spec "photos/photo.jpg").1 (by decide)
  exact ⟨h, h.trans (by decide), (single_file_output_path_spec "photo.jpg").2 (by decide)⟩

/-- The test `colorInRange` decides membership in `[0, 255]`. -/
theorem colorInRange_iff (v : Int) : colorInRange v = true ↔ 0 ≤ v ∧ v ≤ 255 := by
  simp [colorInRange]

/-- Parsing preserves the component count. -/
theorem parseComponents_length (l : List String) :
    ∀ vs, parseComponents l = some vs → vs.length = l.length := by
  induction l with
  | nil =>
    intro vs h
    simp only [parseComponents, Option.some.injEq] at h
    subst h
    rfl
  | cons c0 rest ih =>
    intro vs h
    simp only [parseComponents] at h
    cases hp : pyIntOfStr c0 with
    | none =>
      rw [hp] at h
      cases hpr : parseComponents rest <;> rw [hpr] at h <;> simp at h
    | some v0 =>
      cases hpr : parseComponents rest with
      | none => rw [hp, hpr] at h; simp at h
      | some vs0 =>
        rw [hp, hpr] at h
        simp only [Option.some.injEq] at h
        subst h
        simp [ih vs0 hpr]

/-- Each input component of a successful parse has its value in the
result. -/
theorem parseComponents_mem (l : List String) :
    ∀ vs, parseComponents l = some vs →
      ∀ c ∈ l, ∃ v, pyIntOfStr c = some v ∧ v ∈ vs := by
  induction l with
  | nil => intro vs h c hc; exact absurd hc (List.not_mem_nil c)
  | cons c0 rest ih =>
    intro vs h c hc
    simp only [parseComponents] at h
    cases hp : pyIntOfStr c0 with
    | none =>
      rw [hp] at h
      cases hpr : parseComponents rest <;> rw [hpr] at h <;> simp at h
    | some v0 =>
      cases hpr : parseComponents rest with
      | none => rw [hp, hpr] at h; simp at h
      | some vs0 =>
        rw [hp, hpr] at h
        simp only [Option.some.injEq] at h
        subst h
        rcases List.mem_cons.mp hc with rfl | hc'
        · exact ⟨v0, hp, List.mem_cons_self _ _⟩
        · obtain ⟨v, h1, h2⟩ := ih vs0 hpr c hc'
          exact ⟨v, h1, List.mem_cons_of_mem _ h2⟩

/-- When every component parses, the whole list parses, with the same
length and every value coming from some component. -/
theorem parseComponents_total (l : List String)
    (h : ∀ c ∈ l, ∃ v, pyIntOfStr c = some v) :
    ∃ vs, parseComponents l = some vs ∧ vs.length = l.length
      ∧ ∀ v ∈ vs, ∃ c ∈ l, pyIntOfStr c = some v := by
  induction l with
  | nil => exact ⟨[], rfl, rfl, by simp⟩
  | cons c0 rest ih =>
    obtain ⟨v0, hv0⟩ := h c0 (List.mem_cons_self _ _)
    obtain ⟨vs0, h1, h2, h3⟩ := ih (fun c hc => h c (List.mem_cons_of_mem _ hc))
    refine ⟨v0 :: vs0, ?_, by simp [h2], ?_⟩
    · simp only [parseComponents]
      rw [hv0, h1]
    · intro v hv
      rcases List.mem_cons.mp hv with rfl | hv'
      · exact ⟨c0, List.mem_cons_self _ _, hv0⟩
      · obtain ⟨c, hc, hcv⟩ := h3 v hv'
        exact ⟨c, List.mem_cons_of_mem _ hc, hcv⟩

/-- C4: the color argument parser succeeds exactly when the string splits
on commas into 3 or 4 components that each strip-and-parse as integers in
`[0, 255]`; a 3-component success gets the default alpha 128 appended, a
4-component success returns the four values, and every violation yields an
error value (the reason `argparse` wraps into `ArgumentTypeError`). -/
theorem parse_color_spec (s : String) :
    ((∃ r g b a, parse_color s = .ok (r, g, b, a)) ↔
      (((pySplitComma s).length = 3 ∨ (pySplitComma s).length = 4)
        ∧ ∀ c ∈ pySplitComma s, ∃ v, pyIntOfStr c = some v ∧ 0 ≤ v ∧ v ≤ 255))
  ∧ (∀ r g b, parseComponents (pySplitComma s) = some [r, g, b] →
      colorInRange r = true → colorInRange g = true → colorInRange b = true →
      parse_color s = .ok (r, g, b, 128))
  ∧ (∀ r g b a, parseComponents (pySplitComma s) = some [r, g, b, a] →
      colorInRange r = true → colorInRange g = true → colorInRange b = true →
      colorInRange a = true → parse_color s = .ok (r, g, b, a))
  ∧ (¬ (((pySplitComma s).length = 3 ∨ (pySplitComma s).length = 4)
        ∧ ∀ c ∈ pySplitComma s, ∃ v, pyIntOfStr c = some v ∧ 0 ≤ v ∧ v ≤ 255) →
      ∃ err, parse_color s = .error err) := by
  have hc3 : ∀ r g b, parseComponents (pySplitComma s) = some [r, g, b] →
      colorInRange r = true → colorInRange g = true → colorInRange b = true →
      parse_color s = .ok (r, g, b, 128) := by
    intro r g b hp hr hg hb
    rw [colorInRange_iff] at hr hg hb
    unfold parse_color
    rw [hp]
    simp [colorInRange]
    split_ifs with h1 h2 h3 <;> first | rfl | omega
  have hc4 : ∀ r g b a, parseComponents (pySplitComma s) = some [r, g, b, a] →
      colorInRange r = true → colorInRange g = true → colorInRange b = true →
      colorInRange a = true → parse_color s = .ok (r, g, b, a) := by
    intro r g b a hp hr hg hb ha
    rw [colorInRange_iff] at hr hg hb ha
    unfold parse_color
    rw [hp]
    simp [colorInRange]
    split_ifs with h1 h2 h3 h4 <;> first | rfl | omega
  have hfwd : (∃ r g b a, parse_color s = .ok (r, g, b, a)) →
      (((pySplitComma s).length = 3 ∨ (pySplitComma s).length = 4)
        ∧ ∀ c ∈ pySplitComma s, ∃ v, pyIntOfStr c = some v ∧ 0 ≤ v ∧ v ≤ 255) := by
    rintro ⟨r, g, b, a, hok⟩
    unfold parse_color at hok
    cases hpc : parseComponents (pySplitComma s) with
    | none => rw [hpc] at hok; exact absurd hok (by simp)
    | some comps0 =>
      rw [hpc] at hok
      dsimp only at hok
      have hlen := parseComponents_length (pySplitComma s) comps0 hpc
      have hmem := parseComponents_mem (pySplitComma s) comps0 hpc
      by_cases h3 : comps0.length = 3
      · rw [if_pos h3] at hok
        obtain ⟨x, y, z, rfl⟩ : ∃ x y z, comps0 = [x, y, z] := by
          rcases comps0 with _ | ⟨x, _ | ⟨y, _ | ⟨z, _ | ⟨w, t⟩⟩⟩⟩ <;>
            simp only [List.length_cons, List.length_nil] at h3 <;>
            first
            | omega
            | exact ⟨x, y, z, rfl⟩
        simp only [List.cons_append, List.nil_append] at hok
        split_ifs at hok with hx hy hz hw
        · refine ⟨Or.inl (by rw [← hlen]; rfl), ?_⟩
          intro c hc
          obtain ⟨v, hcv, hvmem⟩ := hmem c hc
          refine ⟨v, hcv, ?_⟩
          rw [← colorInRange_iff]
          simp only [List.mem_cons, List.not_mem_nil, or_false] at hvmem
          rcases hvmem with rfl | rfl | rfl
          · exact hx
          · exact hy
          · exact hz
      · rw [if_neg h3] at hok
        rcases comps0 with _ | ⟨x, _ | ⟨y, _ | ⟨z, _ | ⟨w, _ | ⟨u, t⟩⟩⟩⟩⟩
        · exact absurd hok (by simp)
        · exact absurd hok (by simp)
        · exact absurd hok (by simp)
        · exact absurd hok (by simp)
        · dsimp only at hok
          split_ifs at hok with hx hy hz hw
          · refine ⟨Or.inr (by rw [← hlen]; rfl), ?_⟩
            intro c hc
            obtain ⟨v, hcv, hvmem⟩ := hmem c hc
            refine ⟨v, hcv, ?_⟩
            rw [← colorInRange_iff]
            simp only [List.mem_cons, List.not_mem_nil, or_false] at hvmem
            rcases hvmem with rfl | rfl | rfl | rfl
            · exact hx
            · exact hy
            · exact hz
            · exact hw
        · exact absurd hok (by simp)
  have hbwd : (((pySplitComma s).length = 3 ∨ (pySplitComma s).length = 4)
        ∧ ∀ c ∈ pySplitComma s, ∃ v, pyIntOfStr c = some v ∧ 0 ≤ v ∧ v ≤ 255) →
      ∃ r g b a, parse_color s = .ok (r, g, b, a) := by
    rintro ⟨hlen, hall⟩
    obtain ⟨vs, hvs, hvslen, hvmem⟩ := parseComponents_total (pySplitComma s)
      (fun c hc => (hall c hc).imp (fun v hv => hv.1))
    have hrange : ∀ v ∈ vs, colorInRange v = true := by
      intro v hv
      obtain ⟨c, hc, hcv⟩ := hvmem v hv
      obtain ⟨v2, hv2, hv2r⟩ := hall c hc
      rw [hcv] at hv2
      injection hv2 with hv2
      rw [colorInRange_iff, hv2]
      exact hv2r
    rcases hlen with h3 | h4
    · have hvs3 : vs.length = 3 := by rw [hvslen, h3]
      obtain ⟨x, y, z, rfl⟩ : ∃ x y z, vs = [x, y, z] := by
        rcases vs with _ | ⟨x, _ | ⟨y, _ | ⟨z, _ | ⟨w, t⟩⟩⟩⟩ <;>
          simp only [List.length_cons, List.length_nil] at hvs3 <;>
          first
          | omega
          | exact ⟨x, y, z, rfl⟩
      exact ⟨x, y, z, 128, hc3 x y z hvs (hrange x (by simp)) (hrange y (by simp))
        (hrange z (by simp))⟩
    · have hvs4 : vs.length = 4 := by rw [hvslen, h4]
      obtain ⟨x, y, z, w, rfl⟩ : ∃ x y z w, vs = [x, y, z, w] := by
        rcases vs with _ | ⟨x, _ | ⟨y, _ | ⟨z, _ | ⟨w, _ | ⟨u, t⟩⟩⟩⟩⟩ <;>
          simp only [List.length_cons, List.length_nil] at hvs4 <;>
          first
          | omega
          | exact ⟨x, y, z, w, rfl⟩
      exact ⟨x, y, z, w, hc4 x y z w hvs (hrange x (by simp)) (hrange y (by simp))
        (hrange z (by simp)) (hrange w (by simp))⟩
  refine ⟨⟨hfwd, hbwd⟩, hc3, hc4, ?_⟩
  intro hn
  cases hpc : parse_color s with
  | ok v =>
    obtain ⟨r, g, b, a⟩ := v
    exact absurd (hfwd ⟨r, g, b, a, hpc⟩) hn
  | error e => exact ⟨e, rfl⟩

theorem parse_color_spec_witness :
    parse_color "255, 0, 10" = .ok (255, 0, 10, 128)
  ∧ (∃ err, parse_color "1,2,300" = .error err) := by
  constructor
  · exact (parse_color_spec "255, 0, 10").2.1 255 0 10 (by decide) (by decide) (by decide)
      (by decide)
  · refine (parse_color_spec "1,2,300").2.2.2 ?_
    rintro ⟨-, hall⟩
    obtain ⟨v, hv, -, hr⟩ := hall "300" (by decide)
    have h300 : pyIntOfStr "300" = some (300 : Int) := by decide
    rw [h300] at hv
    injection hv with hv
    rw [← hv] at hr
    exact absurd hr (by decide)
